import Mathlib

/-!
Verification of the AI live meeting summarizer core: a shallow embedding of
`models.py` (STTModel, Diarizer, Summarizer), `export.py` (JSON and CSV
formatters) and the Start-Processing handler of `app.py` (the pipeline
orchestrator), with theorems settling the specification claims.

Python strings are modelled as Lean `String` (a list of unicode scalar
characters); Python ints as `Int`; external model libraries (whisper,
pyannote, transformers, pydub) appear as explicit parameters giving the
outcome of each external call.
-/

/-- Outcome of a call into an external Python library: a normal return or a
raised exception carrying a message. -/
inductive PyResult (α : Type) where
  | ok (a : α)
  | exn (msg : String)
deriving DecidableEq

/-- Characters the embedding treats as whitespace for Python `str.split()` /
`str.strip()` (the ASCII whitespace characters). -/
def isPyWhitespace (c : Char) : Bool :=
  c = ' ' || c = '\t' || c = '\n' || c = '\r' || c = '\x0b' || c = '\x0c'

/-- Python `str.strip()`: remove leading and trailing whitespace. -/
def pyStrip (s : String) : String :=
  ⟨((s.data.dropWhile isPyWhitespace).reverse.dropWhile isPyWhitespace).reverse⟩

/-- Python `str.lower()` (per-character lowering). -/
def pyLower (s : String) : String := ⟨s.data.map Char.toLower⟩

/-- Helper for `pyWords`: `cur` holds the reversed current word, `acc` the
reversed list of completed words. -/
def pyWordsAux (cur : List Char) (acc : List (List Char)) : List Char → List (List Char)
  | [] => if cur = [] then acc.reverse else (cur.reverse :: acc).reverse
  | c :: rest =>
    if isPyWhitespace c then
      if cur = [] then pyWordsAux [] acc rest else pyWordsAux [] (cur.reverse :: acc) rest
    else pyWordsAux (c :: cur) acc rest

/-- Python `str.split()` with no separator: the whitespace-delimited words,
with no empty words. -/
def pyWords (l : List Char) : List (List Char) := pyWordsAux [] [] l

/-- Python `" ".join(words)`. -/
def joinSpace : List (List Char) → List Char
  | [] => []
  | [w] => w
  | w :: ws => w ++ ' ' :: joinSpace ws

/-- Python `text.split(". ")`, specialised to the two-character separator
used by the summarizer fallback. -/
def splitDotSpace : List Char → List (List Char)
  | [] => [[]]
  | '.' :: ' ' :: rest => [] :: splitDotSpace rest
  | c :: rest =>
    match splitDotSpace rest with
    | [] => [[c]]
    | p :: ps => (c :: p) :: ps

/-- Python `". ".join(sentences)`. -/
def joinDotSpace : List (List Char) → List Char
  | [] => []
  | [w] => w
  | w :: ws => w ++ '.' :: ' ' :: joinDotSpace ws

/-- Does `needle` occur at the start of the second list? -/
def leadsWith : List Char → List Char → Bool
  | [], _ => true
  | _ :: _, [] => false
  | c :: cs, d :: ds => c = d && leadsWith cs ds

/-- Does `needle` occur anywhere in the list? -/
def occursIn (needle : List Char) : List Char → Bool
  | [] => needle.isEmpty
  | d :: ds => leadsWith needle (d :: ds) || occursIn needle ds

/-- Python `needle in hay` on strings. -/
def containsSubstr (hay needle : String) : Bool := occursIn needle.data hay.data

/-- One speaker-attributed time segment, as built by `Diarizer.get_segments`:
the dict with keys speaker, start, end, text. -/
structure Segment where
  speaker : String
  start : Int
  «end» : Int
  text : String
deriving DecidableEq

/-- The record exported from the app: the dict with keys segments and
summary passed to `export_as_json` in `app.py` tab 4. -/
structure TranscriptRecord where
  segments : List Segment
  summary : String
deriving DecidableEq

/-- The underlying speech-to-text model implementation held by `STTModel`;
the constructor only ever loads the Whisper model of a given size. -/
inductive LoadedModel where
  | whisper (size : String)
deriving DecidableEq

/-- `STTModel`: stores the `model_name` argument and the loaded model, which
is `None` when loading failed. -/
structure STTModel where
  model_name : String
  model : Option LoadedModel
deriving DecidableEq

/-- `STTModel.__init__(model_name)`: tries `import whisper` and
`whisper.load_model("base")`; on ImportError leaves `model = None`.
`whisperAvailable` says whether the import and load succeed. The
`model_name` argument is stored but never consulted when loading. -/
def STTModel.init (whisperAvailable : Bool) (model_name : String) : STTModel :=
  { model_name := model_name
    model := if whisperAvailable then some (LoadedModel.whisper "base") else none }

/-- `STTModel.transcribe(audio_path)`. `modelCall` is the external
`self.model.transcribe(audio_path)` call: an exception, or a dict whose
optional "text" entry is returned (`result.get("text", "No speech detected")`). -/
def STTModel.transcribe (m : STTModel) (modelCall : String → PyResult (Option String))
    (audio_path : String) : String :=
  match m.model with
  | none => "ERROR: Whisper model not loaded. Install: pip install openai-whisper"
  | some _ =>
    match modelCall audio_path with
    | PyResult.exn e => "Transcription failed: " ++ e
    | PyResult.ok none => "No speech detected"
    | PyResult.ok (some text) => text

/-- `Diarizer`: records whether the pyannote pipeline loaded. -/
structure Diarizer where
  use_pyannote : Bool
deriving DecidableEq

/-- `Diarizer.__init__`: tries to load the pyannote pipeline, setting
`use_pyannote` accordingly. -/
def Diarizer.init (pyannoteAvailable : Bool) : Diarizer := ⟨pyannoteAvailable⟩

/-- `Diarizer.get_segments(audio_path)`. `audioDecode` is the external
`AudioSegment.from_file(audio_path)` call, yielding the audio length in
milliseconds (`len(audio)`); the method then divides by 1000 and truncates
(`int(duration)`). A fresh `STTModel()` (default name "whisper") is built and
its transcription becomes the text of the single whole-clip segment. Any
exception yields the single zero-length error segment. The loaded pyannote
pipeline is never consulted. -/
def Diarizer.get_segments (_d : Diarizer) (audioDecode : PyResult Nat)
    (whisperAvailable : Bool) (modelCall : String → PyResult (Option String))
    (audio_path : String) : List Segment :=
  match audioDecode with
  | PyResult.exn e => [⟨"Speaker 1", 0, 0, "Diarization error: " ++ e⟩]
  | PyResult.ok ms =>
    let stt := STTModel.init whisperAvailable "whisper"
    let full_text := stt.transcribe modelCall audio_path
    [⟨"Speaker 1", 0, ((ms / 1000 : Nat) : Int), full_text⟩]

/-- `Summarizer`: holds the transformers pipeline, or `None` when loading
failed. The pipeline is the external call text to summary-result. -/
structure Summarizer where
  summarizer : Option (String → PyResult String)

/-- `Summarizer.__init__`: tries to build the transformers summarization
pipeline; on failure leaves `summarizer = None`. -/
def Summarizer.init (transformersAvailable : Bool) (call : String → PyResult String) :
    Summarizer :=
  ⟨if transformersAvailable then some call else none⟩

/-- `Summarizer._simple_summary(text)`: split on ". "; with two or fewer
sentences return the text, otherwise the first two sentences joined with
". " plus a trailing period. -/
def Summarizer._simple_summary (text : String) : String :=
  let sentences := splitDotSpace text.data
  if sentences.length ≤ 2 then text
  else ⟨joinDotSpace (sentences.take 2) ++ ['.']⟩

/-- `Summarizer.summarize(text)`: the policy ladder of `models.py` lines
98-126: blank input yields the fixed message; fewer than 50 words is
returned unchanged; otherwise the transformers pipeline is used on the
input truncated to its first 500 words, falling back to `_simple_summary`
of that (possibly truncated) text on an exception, or to `_simple_summary`
of the text when no pipeline is loaded. -/
def Summarizer.summarize (sm : Summarizer) (text : String) : String :=
  if text = "" ∨ pyStrip text = "" then "No text to summarize."
  else
    let words := pyWords text.data
    if words.length < 50 then text
    else
      match sm.summarizer with
      | some f =>
        let text2 := if 500 < words.length then (⟨joinSpace (words.take 500)⟩ : String) else text
        match f text2 with
        | PyResult.ok result => result
        | PyResult.exn _ => Summarizer._simple_summary text2
      | none => Summarizer._simple_summary text

/-- The text `summarize` actually hands to the model call and, on a model
failure, to the extractive fallback: the input truncated to its first 500
whitespace-split words when longer (`models.py` lines 115-116 rebind
`text`), the input itself otherwise. -/
def truncate500 (text : String) : String :=
  if 500 < (pyWords text.data).length then ⟨joinSpace ((pyWords text.data).take 500)⟩
  else text

/-- Decimal digit character for `d < 10`. -/
def digitChar (d : Nat) : Char := Char.ofNat (48 + d)

/-- Decimal digits of a natural number (as in Python `str(n)`). -/
def natDigits (n : Nat) : List Char :=
  if _h : n < 10 then [digitChar n]
  else natDigits (n / 10) ++ [digitChar (n % 10)]
decreasing_by exact Nat.div_lt_self (by omega) (by omega)

/-- Python `str(i)` for an int: decimal digits with a leading minus sign on
negative values (also how `json.dumps` and `csv` render int fields). -/
def intToDecimal (i : Int) : List Char :=
  if i < 0 then '-' :: natDigits i.natAbs else natDigits i.toNat

/-- Lowercase hexadecimal digit character for `d < 16`. -/
def hexDig (d : Nat) : Char :=
  if d < 10 then Char.ofNat (48 + d) else Char.ofNat (87 + d)

/-- Four lowercase hex digits of `n % 65536`, as in a JSON `\uXXXX` escape. -/
def encodeHex4 (n : Nat) : List Char :=
  [hexDig (n / 4096 % 16), hexDig (n / 256 % 16), hexDig (n / 16 % 16), hexDig (n % 16)]

/-- The escape of one character inside a JSON string literal, as produced by
Python `json.dumps` with its default `ensure_ascii=True`: the named escapes,
`\uXXXX` for other non-printable or non-ASCII characters, and a surrogate
pair of `\uXXXX` escapes for characters beyond the basic plane. -/
def jsonEscapeChar (c : Char) : List Char :=
  if c = '"' then ['\\', '"']
  else if c = '\\' then ['\\', '\\']
  else if c = '\n' then ['\\', 'n']
  else if c = '\r' then ['\\', 'r']
  else if c = '\t' then ['\\', 't']
  else if c = '\x08' then ['\\', 'b']
  else if c = '\x0c' then ['\\', 'f']
  else if c.toNat < 0x20 ∨ 0x7e < c.toNat then
    if c.toNat < 0x10000 then '\\' :: 'u' :: encodeHex4 c.toNat
    else
      ('\\' :: 'u' :: encodeHex4 (0xd800 + (c.toNat - 0x10000) / 0x400)) ++
      ('\\' :: 'u' :: encodeHex4 (0xdc00 + (c.toNat - 0x10000) % 0x400))
  else [c]

/-- JSON escaping of a whole string body. -/
def escapeChars : List Char → List Char
  | [] => []
  | c :: rest => jsonEscapeChar c ++ escapeChars rest

/-- The characters `json.dumps(segment_dict, indent=2)` places for one
segment at depth two (inside the segments list of the record): keys in the
insertion order speaker, start, end, text; each string value is its escaped
body between quotes. -/
def renderSegment (s : Segment) : List Char :=
  "\x7b\n      \"speaker\": \"".data ++ escapeChars s.speaker.data ++
  "\",\n      \"start\": ".data ++ intToDecimal s.start ++
  ",\n      \"end\": ".data ++ intToDecimal s.«end» ++
  ",\n      \"text\": \"".data ++ escapeChars s.text.data ++
  "\"\n    \x7d".data

/-- Segments after the first within the rendered list, each preceded by the
item separator, with the closing bracket of the list. -/
def renderSegTail : List Segment → List Char
  | [] => "\n  ]".data
  | s :: rest => ",\n    ".data ++ renderSegment s ++ renderSegTail rest

/-- The rendered segments list (`[]` when empty). -/
def renderSegments : List Segment → List Char
  | [] => "[]".data
  | s :: rest => "[\n    ".data ++ renderSegment s ++ renderSegTail rest

/-- `export_as_json(data)` = `json.dumps(data, indent=2)` applied to the
record dict with keys segments and summary in that insertion order; the
summary string value is its escaped body between quotes. -/
def export_as_json (r : TranscriptRecord) : String :=
  ⟨"\x7b\n  \"segments\": ".data ++ renderSegments r.segments ++
   ",\n  \"summary\": \"".data ++ escapeChars r.summary.data ++ "\"\n\x7d".data⟩

/-- Numeric value of one hexadecimal digit character (either case). -/
def hexVal (c : Char) : Option Nat :=
  if '0' ≤ c ∧ c ≤ '9' then some (c.toNat - 48)
  else if 'a' ≤ c ∧ c ≤ 'f' then some (c.toNat - 87)
  else if 'A' ≤ c ∧ c ≤ 'F' then some (c.toNat - 55)
  else none

/-- Value of a four-hex-digit escape. -/
def decodeHex4 (a b c d : Char) : Option Nat :=
  match hexVal a, hexVal b, hexVal c, hexVal d with
  | some x, some y, some z, some w => some (((x * 16 + y) * 16 + z) * 16 + w)
  | _, _, _, _ => none

/-- Prepend a decoded character to the result of parsing the rest. -/
def mapCons (c : Char) (o : Option (List Char × List Char)) :
    Option (List Char × List Char) :=
  o.map (fun p => (c :: p.1, p.2))

/-- Decode one JSON escape sequence (the characters after a backslash):
the character it denotes and the remaining input, combining a surrogate
pair of `\uXXXX` escapes into one character. -/
def decodeEscape : List Char → Option (Char × List Char)
  | [] => none
  | e :: rest =>
    if e = '"' then some ('"', rest)
    else if e = '\\' then some ('\\', rest)
    else if e = 'n' then some ('\n', rest)
    else if e = 'r' then some ('\r', rest)
    else if e = 't' then some ('\t', rest)
    else if e = 'b' then some ('\x08', rest)
    else if e = 'f' then some ('\x0c', rest)
    else if e = '/' then some ('/', rest)
    else if e = 'u' then
      match rest with
      | h1 :: h2 :: h3 :: h4 :: rest2 =>
        match decodeHex4 h1 h2 h3 h4 with
        | none => none
        | some n =>
          if n < 0xd800 ∨ 0xdfff < n then some (Char.ofNat n, rest2)
          else if n ≤ 0xdbff then
            match rest2 with
            | b :: u :: g1 :: g2 :: g3 :: g4 :: rest3 =>
              if b = '\\' ∧ u = 'u' then
                match decodeHex4 g1 g2 g3 g4 with
                | none => none
                | some m =>
                  if 0xdc00 ≤ m ∧ m ≤ 0xdfff then
                    some (Char.ofNat (0x10000 + (n - 0xd800) * 0x400 + (m - 0xdc00)), rest3)
                  else none
              else none
            | _ => none
          else none
      | _ => none
    else none

/-- JSON string-body decoder (as `json.loads` reads the characters after an
opening quote): consumes up to and including the closing quote, resolving
escapes, and returns the decoded body with the remaining input. `fuel`
bounds the number of decoded characters; callers seed it with the input
length, which always suffices. -/
def parseStringBody (fuel : Nat) (l : List Char) : Option (List Char × List Char) :=
  match fuel with
  | 0 => none
  | fuel + 1 =>
    match l with
    | [] => none
    | c :: rest =>
      if c = '"' then some ([], rest)
      else if c = '\\' then
        match decodeEscape rest with
        | some (u, rest2) => mapCons u (parseStringBody fuel rest2)
        | none => none
      else mapCons c (parseStringBody fuel rest)

/-- Decode a JSON string body, seeding the fuel from the input length. -/
def readString (l : List Char) : Option (List Char × List Char) :=
  parseStringBody l.length l

/-- Consume an exact literal prefix, returning the remaining input. -/
def dropLit : List Char → List Char → Option (List Char)
  | [], input => some input
  | _ :: _, [] => none
  | c :: lit, d :: input => if c = d then dropLit lit input else none

/-- Consume a maximal run of decimal digits, accumulating their value. -/
def parseDigits (acc : Nat) : List Char → Nat × List Char
  | [] => (acc, [])
  | c :: rest =>
    if c.isDigit then parseDigits (acc * 10 + (c.toNat - 48)) rest else (acc, c :: rest)

/-- Parse a nonempty run of decimal digits. -/
def parseNat (l : List Char) : Option (Nat × List Char) :=
  match l with
  | [] => none
  | c :: _ => if c.isDigit then some (parseDigits 0 l) else none

/-- Parse a JSON integer: optional minus sign, then digits. -/
def parseInt (l : List Char) : Option (Int × List Char) :=
  match l with
  | [] => none
  | c :: rest =>
    if c = '-' then
      match parseNat rest with
      | some (n, r) => some (-(n : Int), r)
      | none => none
    else
      match parseNat l with
      | some (n, r) => some ((n : Int), r)
      | none => none

/-- Decode one rendered segment object, literal anchors included. -/
def parseSegment (l : List Char) : Option (Segment × List Char) := do
  let l ← dropLit "\x7b\n      \"speaker\": \"".data l
  let (spk, l) ← readString l
  let l ← dropLit ",\n      \"start\": ".data l
  let (st, l) ← parseInt l
  let l ← dropLit ",\n      \"end\": ".data l
  let (en, l) ← parseInt l
  let l ← dropLit ",\n      \"text\": \"".data l
  let (tx, l) ← readString l
  let l ← dropLit "\n    \x7d".data l
  pure (⟨⟨spk⟩, st, en, ⟨tx⟩⟩, l)

/-- Decode the segments that follow the first one: either the closing
bracket of the list, or a separator and a further segment. `fuel` bounds the
number of further segments (the caller passes the input length). -/
def parseMoreSegs (fuel : Nat) (l : List Char) : Option (List Segment × List Char) :=
  match fuel with
  | 0 => (dropLit "\n  ]".data l).map (fun r => (([] : List Segment), r))
  | fuel + 1 =>
    match dropLit "\n  ]".data l with
    | some r => some ([], r)
    | none => do
      let l2 ← dropLit ",\n    ".data l
      let (s, l3) ← parseSegment l2
      let (ss, l4) ← parseMoreSegs fuel l3
      pure (s :: ss, l4)

/-- Decode the rendered segments list; the fuel of the trailing-segments
loop is seeded from the remaining input length, which always suffices. -/
def parseSegList (l : List Char) : Option (List Segment × List Char) :=
  match dropLit "[]".data l with
  | some r => some ([], r)
  | none => do
    let l2 ← dropLit "[\n    ".data l
    let (s, l3) ← parseSegment l2
    let (ss, l4) ← parseMoreSegs l3.length l3
    pure (s :: ss, l4)

/-- JSON-decoding of an exported record string (`json.loads` restricted to
the grammar `export_as_json` emits): succeeds exactly when the whole input
is one rendered record, and returns that record. -/
def json_loads_record (s : String) : Option TranscriptRecord := do
  let l ← dropLit "\x7b\n  \"segments\": ".data s.data
  let (segs, l) ← parseSegList l
  let l ← dropLit ",\n  \"summary\": \"".data l
  let (sum, l) ← readString l
  let l ← dropLit "\n\x7d".data l
  if l = [] then pure ⟨segs, ⟨sum⟩⟩ else none

/-- Does a CSV field need quoting under the default excel dialect with
QUOTE_MINIMAL: it contains the delimiter, the quote character, or a
character of the line terminator. -/
def csvNeedsQuote (s : String) : Bool :=
  s.data.any (fun c => c = ',' || c = '"' || c = '\r' || c = '\n')

/-- Quote a CSV field: surround with quotes, doubling embedded quotes. -/
def csvQuote (s : String) : String :=
  ⟨'"' :: (s.data.foldr (fun c acc => if c = '"' then '"' :: '"' :: acc else c :: acc) ['"'])⟩

/-- Render one CSV field with minimal quoting. -/
def csvField (s : String) : String := if csvNeedsQuote s then csvQuote s else s

/-- The data row `csv.DictWriter.writerow` emits for one segment: fields in
the fieldnames order speaker, start, end, text, comma separated, ints
rendered by `str`. -/
def csvRow (s : Segment) : String :=
  csvField s.speaker ++ "," ++ csvField ⟨intToDecimal s.start⟩ ++ "," ++
  csvField ⟨intToDecimal s.«end»⟩ ++ "," ++ csvField s.text

/-- The rows of the CSV export: the header row written by `writeheader`
followed by one data row per segment, in order. -/
def csvLines (segs : List Segment) : List String :=
  "speaker,start,end,text" :: segs.map csvRow

/-- `export_as_csv(segments)`: every row terminated by the default `\r\n`
line terminator of the excel dialect. -/
def export_as_csv (segs : List Segment) : String :=
  String.join ((csvLines segs).map (fun r => r ++ "\r\n"))

/-- The session state the Start-Processing handler reads and writes:
`st.session_state.segments`, `st.session_state.summary`,
`st.session_state.processing_done`. -/
structure SessionState where
  segments : List Segment
  summary : String
  processing_done : Bool
deriving DecidableEq

/-- The four pipeline stages of the handler. -/
inductive Stage where
  | init
  | transcribe
  | diarize
  | summarize
deriving DecidableEq

/-- Everything external to one press of Start Processing: whether each
library is usable, the outcome of each external call, the sidebar model
choice, the scratch path of the uploaded audio, and for each guarded stage
an optionally injected exception (the failure its try/except block is there
to catch, e.g. from a UI call inside the block). -/
structure RunEnv where
  initExn : Option String
  transcribeExn : Option String
  diarizeExn : Option String
  summarizeExn : Option String
  whisperAvailable : Bool
  pyannoteAvailable : Bool
  transformersAvailable : Bool
  modelChoiceIsWhisper : Bool
  sttCall : String → PyResult (Option String)
  sttCall2 : String → PyResult (Option String)
  audioDecode : PyResult Nat
  sumCall : String → PyResult String
  audio_path : String

/-- The `model_name` the handler passes to `STTModel`, from the sidebar
selectbox: "whisper" when the choice mentions Whisper, else "vosk". -/
def envModelName (env : RunEnv) : String :=
  if env.modelChoiceIsWhisper then "whisper" else "vosk"

/-- The transcript of stage two: `stt.transcribe(audio_path)` on the
`STTModel` built in stage one. -/
def envTranscript (env : RunEnv) : String :=
  (STTModel.init env.whisperAvailable (envModelName env)).transcribe env.sttCall env.audio_path

/-- The stage-two abort test of the handler:
`"ERROR" in full_transcript or "failed" in full_transcript.lower()`. -/
def hasErrorMarker (t : String) : Bool :=
  containsSubstr t "ERROR" || containsSubstr (pyLower t) "failed"

/-- `st.session_state.segments[0]["text"] = full_transcript`: overwrite the
text of the first segment. -/
def setFirstText (t : String) : List Segment → List Segment
  | [] => []
  | s :: rest => ⟨s.speaker, s.start, s.«end», t⟩ :: rest

/-- The segments stage three stores: `diarizer.get_segments(audio_path)`,
then, when the list is truthy, the first text overwritten with the full
transcript. -/
def envSegments (env : RunEnv) : List Segment :=
  let segs := (Diarizer.init env.pyannoteAvailable).get_segments env.audioDecode
    env.whisperAvailable env.sttCall2 env.audio_path
  if segs.isEmpty then segs else setFirstText (envTranscript env) segs

/-- One press of Start Processing (`app.py` lines 63-125): the four stages
in order, each inside its try/except; an exception aborts the run (the
outer except shows the error and traceback, the finally removes the scratch
file) leaving the session state as it was at that point. Returns the final
session state and the stages that were entered. -/
def runHandler (env : RunEnv) (s0 : SessionState) : SessionState × List Stage :=
  match env.initExn with
  | some _ => (s0, [Stage.init])
  | none =>
    match env.transcribeExn with
    | some _ => (s0, [Stage.init, Stage.transcribe])
    | none =>
      if hasErrorMarker (envTranscript env) then (s0, [Stage.init, Stage.transcribe])
      else
        match env.diarizeExn with
        | some _ => (s0, [Stage.init, Stage.transcribe, Stage.diarize])
        | none =>
          let s1 : SessionState := ⟨envSegments env, s0.summary, s0.processing_done⟩
          match env.summarizeExn with
          | some _ => (s1, [Stage.init, Stage.transcribe, Stage.diarize, Stage.summarize])
          | none =>
            let summ := (Summarizer.init env.transformersAvailable env.sumCall).summarize
              (envTranscript env)
            (⟨s1.segments, summ, true⟩,
             [Stage.init, Stage.transcribe, Stage.diarize, Stage.summarize])

/-- A run environment in which everything succeeds except an exception in
the stage-four block, after stage three has stored its segments. -/
def envStepFourFails : RunEnv :=
  { initExn := none
    transcribeExn := none
    diarizeExn := none
    summarizeExn := some "boom"
    whisperAvailable := true
    pyannoteAvailable := false
    transformersAvailable := false
    modelChoiceIsWhisper := true
    sttCall := fun _ => PyResult.ok (some "hello world this is a test")
    sttCall2 := fun _ => PyResult.ok (some "hello world this is a test")
    audioDecode := PyResult.ok 10000
    sumCall := fun _ => PyResult.exn "unused"
    audio_path := "meeting.wav" }

/-- A run environment in which the Whisper model is unavailable, so the
transcription stage returns the ERROR sentinel string. -/
def envNoWhisper : RunEnv :=
  { initExn := none
    transcribeExn := none
    diarizeExn := none
    summarizeExn := none
    whisperAvailable := false
    pyannoteAvailable := false
    transformersAvailable := false
    modelChoiceIsWhisper := true
    sttCall := fun _ => PyResult.ok (some "unused")
    sttCall2 := fun _ => PyResult.ok (some "unused")
    audioDecode := PyResult.ok 10000
    sumCall := fun _ => PyResult.exn "unused"
    audio_path := "meeting.wav" }

/-- A run environment in which audio decoding inside `get_segments` raises,
so diarization takes its internal error path. -/
def envDecodeFails : RunEnv :=
  { initExn := none
    transcribeExn := none
    diarizeExn := none
    summarizeExn := none
    whisperAvailable := true
    pyannoteAvailable := false
    transformersAvailable := false
    modelChoiceIsWhisper := true
    sttCall := fun _ => PyResult.ok (some "hello world this is a test")
    sttCall2 := fun _ => PyResult.ok (some "hello world this is a test")
    audioDecode := PyResult.exn "disk error"
    sumCall := fun _ => PyResult.exn "unused"
    audio_path := "meeting.wav" }

/-- The blank initial session state of a fresh session. -/
def freshSession : SessionState := ⟨[], "", false⟩

/-- A concrete text of 501 one-letter words and no sentence separator:
long enough to be truncated before the summarizer model call. -/
def longWords : String := ⟨joinSpace (List.replicate 501 ['w'])⟩

/-- A concrete text of 50 one-letter words: just long enough to reach the
summarizer model call without truncation. -/
def fiftyWords : String := ⟨joinSpace (List.replicate 50 ['w'])⟩

theorem mapCons_some (c : Char) (a b : List Char) :
    mapCons c (some (a, b)) = some (c :: a, b) := rfl

theorem hexVal_hexDig : ∀ d : Nat, d < 16 → hexVal (hexDig d) = some d := by decide

theorem decodeHex4_encode (n : Nat) (h : n < 65536) :
    decodeHex4 (hexDig (n / 4096 % 16)) (hexDig (n / 256 % 16))
      (hexDig (n / 16 % 16)) (hexDig (n % 16)) = some n := by
  rw [decodeHex4, hexVal_hexDig _ (by omega), hexVal_hexDig _ (by omega),
    hexVal_hexDig _ (by omega), hexVal_hexDig _ (by omega)]
  simp only [Option.some.injEq]
  omega

/-- The value of a character is never a surrogate and is below 0x110000. -/
theorem char_toNat_valid (c : Char) :
    (c.toNat < 0xd800 ∨ 0xdfff < c.toNat) ∧ c.toNat < 0x110000 := by
  have h := c.valid
  unfold UInt32.isValidChar Nat.isValidChar at h
  have he : c.toNat = c.val.toNat := rfl
  rcases h with h | h
  · exact ⟨Or.inl (by omega), by omega⟩
  · exact ⟨Or.inr (by omega), by omega⟩

/-- Decoding what the escape of a character emits after its backslash
recovers that character, for the characters that are escaped. -/
theorem decodeEscape_escChar (c : Char) (tail : List Char)
    (h8 : c = '"' ∨ c = '\\' ∨ c.toNat < 0x20 ∨ 0x7e < c.toNat) :
    ∃ body, jsonEscapeChar c = '\\' :: body ∧ decodeEscape (body ++ tail) = some (c, tail) := by
  have hval := char_toNat_valid c
  by_cases h1 : c = '"'
  · exact ⟨['"'], by subst h1; rfl, by subst h1; rfl⟩
  by_cases h2 : c = '\\'
  · exact ⟨['\\'], by subst h2; rfl, by subst h2; rfl⟩
  have h8 : c.toNat < 0x20 ∨ 0x7e < c.toNat := by
    rcases h8 with h | h | h
    · exact absurd h h1
    · exact absurd h h2
    · exact h
  by_cases h3 : c = '\n'
  · exact ⟨['n'], by subst h3; rfl, by subst h3; rfl⟩
  by_cases h4 : c = '\r'
  · exact ⟨['r'], by subst h4; rfl, by subst h4; rfl⟩
  by_cases h5 : c = '\t'
  · exact ⟨['t'], by subst h5; rfl, by subst h5; rfl⟩
  by_cases h6 : c = '\x08'
  · exact ⟨['b'], by subst h6; rfl, by subst h6; rfl⟩
  by_cases h7 : c = '\x0c'
  · exact ⟨['f'], by subst h7; rfl, by subst h7; rfl⟩
  by_cases h9 : c.toNat < 0x10000
  · refine ⟨'u' :: encodeHex4 c.toNat, ?_, ?_⟩
    · rw [jsonEscapeChar, if_neg h1, if_neg h2, if_neg h3, if_neg h4, if_neg h5, if_neg h6,
        if_neg h7, if_pos h8, if_pos h9]
    · have hdec : decodeHex4 (hexDig (c.toNat / 4096 % 16)) (hexDig (c.toNat / 256 % 16))
          (hexDig (c.toNat / 16 % 16)) (hexDig (c.toNat % 16)) = some c.toNat :=
        decodeHex4_encode c.toNat h9
      show decodeEscape ('u' :: hexDig (c.toNat / 4096 % 16) :: hexDig (c.toNat / 256 % 16) ::
        hexDig (c.toNat / 16 % 16) :: hexDig (c.toNat % 16) :: tail) = some (c, tail)
      rw [decodeEscape]
      simp only [Char.reduceEq, reduceIte, hdec]
      rw [if_pos hval.1, Char.ofNat_toNat]
  · push_neg at h9
    have hq : (c.toNat - 0x10000) / 0x400 < 0x400 := by omega
    have hr : (c.toNat - 0x10000) % 0x400 < 0x400 := Nat.mod_lt _ (by omega)
    have hhiB : 0xd800 + (c.toNat - 0x10000) / 0x400 < 65536 := by omega
    have hloB : 0xdc00 + (c.toNat - 0x10000) % 0x400 < 65536 := by omega
    have hdecHi := decodeHex4_encode (0xd800 + (c.toNat - 0x10000) / 0x400) hhiB
    have hdecLo := decodeHex4_encode (0xdc00 + (c.toNat - 0x10000) % 0x400) hloB
    have hnotB : ¬(0xd800 + (c.toNat - 0x10000) / 0x400 < 0xd800 ∨
        0xdfff < 0xd800 + (c.toNat - 0x10000) / 0x400) := by omega
    have hhi : 0xd800 + (c.toNat - 0x10000) / 0x400 ≤ 0xdbff := by omega
    have hlo : 0xdc00 ≤ 0xdc00 + (c.toNat - 0x10000) % 0x400 ∧
        0xdc00 + (c.toNat - 0x10000) % 0x400 ≤ 0xdfff := by omega
    refine ⟨'u' :: encodeHex4 (0xd800 + (c.toNat - 0x10000) / 0x400) ++
      ('\\' :: 'u' :: encodeHex4 (0xdc00 + (c.toNat - 0x10000) % 0x400)), ?_, ?_⟩
    · rw [jsonEscapeChar, if_neg h1, if_neg h2, if_neg h3, if_neg h4, if_neg h5, if_neg h6,
        if_neg h7, if_pos h8, if_neg (by omega)]
      simp
    · show decodeEscape ('u' ::
        hexDig ((0xd800 + (c.toNat - 0x10000) / 0x400) / 4096 % 16) ::
        hexDig ((0xd800 + (c.toNat - 0x10000) / 0x400) / 256 % 16) ::
        hexDig ((0xd800 + (c.toNat - 0x10000) / 0x400) / 16 % 16) ::
        hexDig ((0xd800 + (c.toNat - 0x10000) / 0x400) % 16) ::
        '\\' :: 'u' ::
        hexDig ((0xdc00 + (c.toNat - 0x10000) % 0x400) / 4096 % 16) ::
        hexDig ((0xdc00 + (c.toNat - 0x10000) % 0x400) / 256 % 16) ::
        hexDig ((0xdc00 + (c.toNat - 0x10000) % 0x400) / 16 % 16) ::
        hexDig ((0xdc00 + (c.toNat - 0x10000) % 0x400) % 16) :: tail) = some (c, tail)
      rw [decodeEscape]
      simp only [Char.reduceEq, reduceIte, hdecHi, hdecLo]
      rw [if_neg hnotB, if_pos hhi, if_pos hlo]
      have harith : 0x10000 + (0xd800 + (c.toNat - 0x10000) / 0x400 - 0xd800) * 0x400 +
          (0xdc00 + (c.toNat - 0x10000) % 0x400 - 0xdc00) = c.toNat := by omega
      rw [harith, Char.ofNat_toNat]
      simp

/-- One step of the string-body decoder consumes exactly the escape of one
character. -/
theorem parse_step (c : Char) (fuel : Nat) (tail : List Char) :
    parseStringBody (fuel + 1) (jsonEscapeChar c ++ tail) =
      mapCons c (parseStringBody fuel tail) := by
  by_cases h8 : c = '"' ∨ c = '\\' ∨ c.toNat < 0x20 ∨ 0x7e < c.toNat
  · obtain ⟨body, hb, hd⟩ := decodeEscape_escChar c tail h8
    rw [hb]
    show parseStringBody (fuel + 1) ('\\' :: (body ++ tail)) = _
    rw [parseStringBody]
    simp only [Char.reduceEq, reduceIte, hd]
  · push_neg at h8
    obtain ⟨h1, h2, h8⟩ := h8
    have hesc : jsonEscapeChar c = [c] := by
      rw [jsonEscapeChar, if_neg h1, if_neg h2,
        if_neg (by intro h; subst h; revert h8; decide),
        if_neg (by intro h; subst h; revert h8; decide),
        if_neg (by intro h; subst h; revert h8; decide),
        if_neg (by intro h; subst h; revert h8; decide),
        if_neg (by intro h; subst h; revert h8; decide),
        if_neg (by omega)]
    rw [hesc]
    show parseStringBody (fuel + 1) (c :: tail) = _
    rw [parseStringBody, if_neg h1, if_neg h2]

/-- Each character escapes to at least one character. -/
theorem jsonEscapeChar_length (c : Char) : 1 ≤ (jsonEscapeChar c).length := by
  rw [jsonEscapeChar]
  repeat' split
  all_goals simp [encodeHex4]

/-- Escaping does not shorten a string. -/
theorem escapeChars_length (s : List Char) : s.length ≤ (escapeChars s).length := by
  induction s with
  | nil => simp [escapeChars]
  | cons c s ih =>
    rw [escapeChars]
    simp only [List.length_append, List.length_cons]
    have := jsonEscapeChar_length c
    omega

/-- Decoding the escaped body of a string, followed by the closing quote,
recovers the original characters and the remaining input, given fuel
exceeding the number of decoded characters. -/
theorem parseStringBody_escape (s : List Char) : ∀ fuel rest, s.length < fuel →
    parseStringBody fuel (escapeChars s ++ '"' :: rest) = some (s, rest) := by
  induction s with
  | nil =>
    intro fuel rest h
    match fuel with
    | fuel + 1 => rfl
  | cons c s ih =>
    intro fuel rest h
    match fuel with
    | fuel + 1 =>
      rw [escapeChars, List.append_assoc, parse_step,
        ih fuel rest (by simp at h; omega), mapCons_some]

/-- Decoding an escaped body with fuel seeded from the input length. -/
theorem readString_escape (s rest : List Char) :
    readString (escapeChars s ++ '"' :: rest) = some (s, rest) := by
  have hl := escapeChars_length s
  apply parseStringBody_escape
  simp only [List.length_append, List.length_cons]
  omega

/-- Consuming a literal prefix succeeds exactly on that prefix. -/
theorem dropLit_append (lit : List Char) : ∀ rest, dropLit lit (lit ++ rest) = some rest := by
  induction lit with
  | nil => intro rest; rfl
  | cons c lit ih => intro rest; simp [dropLit, ih]

theorem digitChar_isDigit : ∀ d : Nat, d < 10 →
    (digitChar d).isDigit = true ∧ (digitChar d).toNat - 48 = d := by decide

/-- The decimal digits of a natural number are all digit characters, and
there is at least one of them. -/
theorem natDigits_spec (n : Nat) :
    natDigits n ≠ [] ∧ ∀ c ∈ natDigits n, c.isDigit = true := by
  induction n using Nat.strong_induction_on with
  | _ n ih =>
    rw [natDigits.eq_def]
    by_cases h : n < 10
    · rw [dif_pos h]
      refine ⟨by simp, ?_⟩
      intro c hc
      simp at hc
      subst hc
      exact (digitChar_isDigit n h).1
    · rw [dif_neg h]
      have hrec := ih (n / 10) (Nat.div_lt_self (by omega) (by omega))
      refine ⟨by simp [hrec.1], ?_⟩
      intro c hc
      rw [List.mem_append] at hc
      rcases hc with hc | hc
      · exact hrec.2 c hc
      · simp at hc
        subst hc
        exact (digitChar_isDigit (n % 10) (Nat.mod_lt _ (by omega))).1

/-- Reading the decimal digits of `n` appended to further input accumulates
`n` into the running value. -/
theorem parseDigits_natDigits (n : Nat) : ∀ acc rest,
    parseDigits acc (natDigits n ++ rest) =
      parseDigits (acc * 10 ^ (natDigits n).length + n) rest := by
  induction n using Nat.strong_induction_on with
  | _ n ih =>
    intro acc rest
    rw [natDigits.eq_def]
    by_cases h : n < 10
    · rw [dif_pos h]
      have hd := digitChar_isDigit n h
      simp only [List.cons_append, List.nil_append, parseDigits, hd.1, if_pos, List.length_cons,
        List.length_nil]
      rw [hd.2]
      norm_num
    · rw [dif_neg h]
      have hd := digitChar_isDigit (n % 10) (Nat.mod_lt _ (by omega))
      rw [List.append_assoc, ih (n / 10) (Nat.div_lt_self (by omega) (by omega))]
      simp only [List.cons_append, List.nil_append, parseDigits, hd.1, if_pos,
        List.length_append, List.length_cons, List.length_nil]
      rw [hd.2]
      congr 1
      have hL : (natDigits (n / 10)).length + (0 + 1) = (natDigits (n / 10)).length + 1 := by
        omega
      rw [hL, pow_succ, ← mul_assoc]
      have hre : (acc * 10 ^ (natDigits (n / 10)).length + n / 10) * 10 + n % 10 =
          acc * 10 ^ (natDigits (n / 10)).length * 10 + (n / 10 * 10 + n % 10) := by ring
      rw [hre]
      generalize acc * 10 ^ (natDigits (n / 10)).length * 10 = A
      omega

/-- Reading digits stops at a non-digit character. -/
theorem parseDigits_stop (m : Nat) (c : Char) (rest : List Char) (hc : c.isDigit = false) :
    parseDigits m (c :: rest) = (m, c :: rest) := by
  rw [parseDigits, hc]
  simp

/-- Reading a natural number back from its decimal digits. -/
theorem parseNat_natDigits (n : Nat) (c : Char) (rest : List Char) (hc : c.isDigit = false) :
    parseNat (natDigits n ++ c :: rest) = some (n, c :: rest) := by
  obtain ⟨hne, hall⟩ := natDigits_spec n
  obtain ⟨d, t, hd⟩ := List.exists_cons_of_ne_nil hne
  have hdig : d.isDigit = true := hall d (by rw [hd]; simp)
  rw [parseNat.eq_def]
  rw [hd, List.cons_append]
  simp only [hdig, if_pos]
  rw [← List.cons_append, ← hd, parseDigits_natDigits, parseDigits_stop _ c rest hc]
  simp

/-- A digit character is not a minus sign. -/
theorem isDigit_ne_minus (c : Char) (h : c.isDigit = true) : c ≠ '-' := by
  intro he
  subst he
  simp [Char.isDigit] at h

/-- Reading an integer back from its decimal rendering, when the next
character is not a digit. -/
theorem parseInt_round (i : Int) (c : Char) (rest : List Char) (hc : c.isDigit = false) :
    parseInt (intToDecimal i ++ c :: rest) = some (i, c :: rest) := by
  rw [intToDecimal]
  by_cases h : i < 0
  · rw [if_pos h]
    rw [List.cons_append, parseInt]
    simp only [Char.reduceEq, reduceIte]
    rw [parseNat_natDigits _ c rest hc]
    have hi : -(i.natAbs : Int) = i := by omega
    show some (-(i.natAbs : Int), c :: rest) = some (i, c :: rest)
    rw [hi]
  · rw [if_neg h]
    obtain ⟨hne, hall⟩ := natDigits_spec i.toNat
    obtain ⟨d, t, hd⟩ := List.exists_cons_of_ne_nil hne
    have hdig : d.isDigit = true := hall d (by rw [hd]; simp)
    rw [parseInt.eq_def]
    rw [hd, List.cons_append]
    simp only [isDigit_ne_minus d hdig, reduceIte, if_neg]
    rw [← List.cons_append, ← hd, parseNat_natDigits _ c rest hc]
    have hi : (i.toNat : Int) = i := by omega
    show some ((i.toNat : Int), c :: rest) = some (i, c :: rest)
    rw [hi]

theorem dropLit_cons (c : Char) (lit input : List Char) :
    dropLit (c :: lit) (c :: input) = dropLit lit input := by simp [dropLit]

theorem dropLit_nil (input : List Char) : dropLit [] input = some input := rfl

theorem dropLit_ne (c d : Char) (lit input : List Char) (h : ¬c = d) :
    dropLit (c :: lit) (d :: input) = none := by simp [dropLit, h]

theorem string_eta (s : String) : String.mk s.data = s := rfl

theorem parseInt_comma (i : Int) (rest : List Char) :
    parseInt (intToDecimal i ++ ',' :: rest) = some (i, ',' :: rest) :=
  parseInt_round i ',' rest (by decide)

/-- Decoding a rendered segment recovers that segment and the remaining
input. -/
theorem parseSegment_render (s : Segment) (rest : List Char) :
    parseSegment (renderSegment s ++ rest) = some (s, rest) := by
  obtain ⟨spk, st, en, tx⟩ := s
  show parseSegment
    ((("\x7b\n      \"speaker\": \"".data ++ escapeChars spk.data ++
      "\",\n      \"start\": ".data ++ intToDecimal st ++
      ",\n      \"end\": ".data ++ intToDecimal en ++
      ",\n      \"text\": \"".data ++ escapeChars tx.data ++
      "\"\n    \x7d".data) ++ rest)) = some (⟨spk, st, en, tx⟩, rest)
  rw [parseSegment]
  simp only [List.append_assoc]
  rw [dropLit_append]
  simp only [List.append_assoc, List.cons_append, List.nil_append, dropLit_cons, dropLit_nil,
    Option.pure_def, Option.bind_eq_bind, Option.some_bind, readString_escape, parseInt_comma,
    string_eta]

/-- The rendered tail of a segments list has at least one character per
segment. -/
theorem renderSegTail_length (more : List Segment) :
    more.length ≤ (renderSegTail more).length := by
  induction more with
  | nil => simp [renderSegTail]
  | cons s ms ih =>
    rw [renderSegTail]
    simp only [List.length_append, List.length_cons]
    omega

/-- Decoding the rendered tail of a segments list recovers those segments,
given fuel at least their number. -/
theorem parseMoreSegs_render (more : List Segment) : ∀ fuel rest, more.length ≤ fuel →
    parseMoreSegs fuel (renderSegTail more ++ rest) = some (more, rest) := by
  induction more with
  | nil =>
    intro fuel rest _h
    show parseMoreSegs fuel ("\n  ]".data ++ rest) = some ([], rest)
    cases fuel with
    | zero =>
      show (dropLit "\n  ]".data ("\n  ]".data ++ rest)).map (fun r => ([], r)) = _
      rw [dropLit_append]
      rfl
    | succ f =>
      rw [parseMoreSegs]
      rw [dropLit_append]
  | cons s ms ih =>
    intro fuel rest h
    match fuel with
    | 0 => simp at h
    | f + 1 =>
      show parseMoreSegs (f + 1)
        ((",\n    ".data ++ renderSegment s ++ renderSegTail ms) ++ rest) = _
      rw [parseMoreSegs]
      simp only [List.append_assoc, List.cons_append, List.nil_append]
      rw [dropLit_ne _ _ _ _ (by decide)]
      simp only [List.cons_append, dropLit_cons, dropLit_nil, Option.pure_def,
        Option.bind_eq_bind, Option.some_bind, parseSegment_render]
      rw [ih f rest (by simp at h; omega)]
      rfl

/-- Decoding a rendered segments list recovers those segments. -/
theorem parseSegList_render (segs : List Segment) (rest : List Char) :
    parseSegList (renderSegments segs ++ rest) = some (segs, rest) := by
  cases segs with
  | nil =>
    show parseSegList ("[]".data ++ rest) = some ([], rest)
    rw [parseSegList]
    simp only [List.cons_append, List.nil_append, dropLit_cons, dropLit_nil]
  | cons s ms =>
    show parseSegList (("[\n    ".data ++ renderSegment s ++ renderSegTail ms) ++ rest) = _
    rw [parseSegList]
    simp only [List.append_assoc, List.cons_append, List.nil_append, dropLit_cons]
    rw [dropLit_ne _ _ _ _ (by decide)]
    simp only [List.cons_append, dropLit_cons, dropLit_nil, Option.pure_def,
      Option.bind_eq_bind, Option.some_bind, parseSegment_render]
    rw [parseMoreSegs_render ms _ rest
      (by simp only [List.length_append]; have := renderSegTail_length ms; omega)]
    rfl

theorem export_as_json_data (r : TranscriptRecord) :
    (export_as_json r).data =
      "\x7b\n  \"segments\": ".data ++ renderSegments r.segments ++
      ",\n  \"summary\": \"".data ++ escapeChars r.summary.data ++ "\"\n\x7d".data := rfl


/-- The stored segments of stage three: the first text always becomes the
full transcript, and on the diarizer error path the whole list is the single
zero-length segment carrying the transcript. -/
theorem envSegments_spec (env : RunEnv) :
    (envSegments env).head?.map Segment.text = some (envTranscript env) ∧
    ∀ e, env.audioDecode = PyResult.exn e →
      envSegments env = [⟨"Speaker 1", 0, 0, envTranscript env⟩] := by
  constructor
  · cases henv : env.audioDecode with
    | ok ms => simp [envSegments, Diarizer.get_segments, henv, setFirstText]
    | exn e => simp [envSegments, Diarizer.get_segments, henv, setFirstText]
  · intro e he
    simp [envSegments, Diarizer.get_segments, he, setFirstText]

/-- On the path through stage four, the handler has stored the stage-three
segments, and both failure and success of stage four keep them. -/
theorem runHandler_stage4 (env : RunEnv) (s0 : SessionState)
    (h1 : env.initExn = none) (h2 : env.transcribeExn = none)
    (h3 : hasErrorMarker (envTranscript env) = false) (h4 : env.diarizeExn = none) :
    (runHandler env s0).1.segments = envSegments env ∧
    (runHandler env s0).2 = [Stage.init, Stage.transcribe, Stage.diarize, Stage.summarize] := by
  cases h5 : env.summarizeExn with
  | none => simp [runHandler, h1, h2, h3, h4, h5]
  | some e => simp [runHandler, h1, h2, h3, h4, h5]

/-- A stage-four exception aborts the run with the stage-three segments
stored but summary and completion flag untouched. -/
theorem runHandler_summarizeExn (env : RunEnv) (s0 : SessionState) (e : String)
    (h1 : env.initExn = none) (h2 : env.transcribeExn = none)
    (h3 : hasErrorMarker (envTranscript env) = false) (h4 : env.diarizeExn = none)
    (h5 : env.summarizeExn = some e) :
    runHandler env s0 = (⟨envSegments env, s0.summary, s0.processing_done⟩,
      [Stage.init, Stage.transcribe, Stage.diarize, Stage.summarize]) := by
  simp [runHandler, h1, h2, h3, h4, h5]

/-- With the Whisper model unavailable, stage two produces the fixed ERROR
sentinel string. -/
theorem envTranscript_noWhisper (env : RunEnv) (h1 : env.whisperAvailable = false) :
    envTranscript env =
      "ERROR: Whisper model not loaded. Install: pip install openai-whisper" := by
  simp [envTranscript, STTModel.init, STTModel.transcribe, h1]

/-- The ERROR sentinel trips the stage-two abort test. -/
theorem hasErrorMarker_sentinel :
    hasErrorMarker "ERROR: Whisper model not loaded. Install: pip install openai-whisper" =
      true := by decide

/-- A tripped stage-two abort test stops the run before diarization. -/
theorem runHandler_transcribe_abort (env : RunEnv) (s0 : SessionState)
    (h2 : env.initExn = none) (h3 : env.transcribeExn = none)
    (hmark : hasErrorMarker (envTranscript env) = true) :
    runHandler env s0 = (s0, [Stage.init, Stage.transcribe]) := by
  simp [runHandler, h2, h3, hmark]

/-- Claim C1: for every TranscriptRecord, JSON-decoding the string produced
by `export_as_json` applied to that record yields the original record
exactly (round-trip law). -/
theorem export_as_json_round_trip (r : TranscriptRecord) :
    json_loads_record (export_as_json r) = some r := by
  obtain ⟨segs, summary⟩ := r
  rw [json_loads_record, export_as_json_data]
  simp only [List.append_assoc]
  rw [dropLit_append]
  simp only [List.append_assoc, List.cons_append, List.nil_append, dropLit_cons, dropLit_nil,
    Option.pure_def, Option.bind_eq_bind, Option.some_bind, parseSegList_render,
    readString_escape, string_eta, reduceIte]

/-- Claim C2, counterexample: in a run whose stage-four block raises after
stage three stored its segments, the failed run ends with those segments
still in session state (not discarded, unlike the claim says), while the
run did not complete. -/
theorem failed_run_keeps_segments_counterexample :
    (runHandler envStepFourFails freshSession).1.segments =
      [⟨"Speaker 1", 0, 10, "hello world this is a test"⟩] ∧
    (runHandler envStepFourFails freshSession).1.segments ≠ freshSession.segments ∧
    (runHandler envStepFourFails freshSession).1.processing_done = false ∧
    (runHandler envStepFourFails freshSession).2 =
      [Stage.init, Stage.transcribe, Stage.diarize, Stage.summarize] := by decide

/-- Claim C2, amended: when a stage fails the run is aborted (no later
stage runs and the completion flag is not set by this run), but the
stage-three segments already written to shared session state persist past
the failed run; only the summary field is left untouched. -/
theorem failed_run_keeps_segments (env : RunEnv) (s0 : SessionState) (e : String)
    (h1 : env.initExn = none) (h2 : env.transcribeExn = none)
    (h3 : hasErrorMarker (envTranscript env) = false) (h4 : env.diarizeExn = none)
    (h5 : env.summarizeExn = some e) :
    (runHandler env s0).1.segments = envSegments env ∧
    (runHandler env s0).1.summary = s0.summary ∧
    (runHandler env s0).1.processing_done = s0.processing_done ∧
    (runHandler env s0).2 = [Stage.init, Stage.transcribe, Stage.diarize, Stage.summarize] := by
  rw [runHandler_summarizeExn env s0 e h1 h2 h3 h4 h5]
  exact ⟨rfl, rfl, rfl, rfl⟩

/-- Claim C2, witness for the amended theorem at a concrete failing run. -/
theorem failed_run_keeps_segments_witness :
    (runHandler envStepFourFails freshSession).1.segments = envSegments envStepFourFails ∧
    (runHandler envStepFourFails freshSession).1.summary = freshSession.summary ∧
    (runHandler envStepFourFails freshSession).1.processing_done =
      freshSession.processing_done ∧
    (runHandler envStepFourFails freshSession).2 =
      [Stage.init, Stage.transcribe, Stage.diarize, Stage.summarize] :=
  failed_run_keeps_segments envStepFourFails freshSession "boom" rfl rfl (by decide) rfl rfl

/-- Claim C3: when the Whisper model failed to load, `transcribe` returns a
string containing "ERROR", and the handler aborts the run before the
diarization stage, leaving the session state unchanged. -/
theorem whisper_unavailable_halts (env : RunEnv) (s0 : SessionState)
    (h1 : env.whisperAvailable = false) (h2 : env.initExn = none)
    (h3 : env.transcribeExn = none) :
    containsSubstr (envTranscript env) "ERROR" = true ∧
    Stage.diarize ∉ (runHandler env s0).2 ∧
    (runHandler env s0).1 = s0 := by
  have ht := envTranscript_noWhisper env h1
  have hmark : hasErrorMarker (envTranscript env) = true := by rw [ht]; decide
  have hrun := runHandler_transcribe_abort env s0 h2 h3 hmark
  refine ⟨by rw [ht]; decide, ?_, by rw [hrun]⟩
  rw [hrun]
  simp

/-- Claim C3, witness at a concrete environment with Whisper unavailable. -/
theorem whisper_unavailable_halts_witness :
    containsSubstr (envTranscript envNoWhisper) "ERROR" = true ∧
    Stage.diarize ∉ (runHandler envNoWhisper freshSession).2 ∧
    (runHandler envNoWhisper freshSession).1 = freshSession :=
  whisper_unavailable_halts envNoWhisper freshSession rfl rfl rfl

/-- Claim C4, counterexample: the two model-selection flag values lead to
the same loaded model; with loading available, both store the Whisper
"base" model, so the flag does not select between two implementations. -/
theorem stt_flag_ignored_counterexample :
    (STTModel.init true "whisper").model = (STTModel.init true "vosk").model ∧
    (STTModel.init true "vosk").model = some (LoadedModel.whisper "base") := by decide

/-- Claim C4, amended: the adapter stores the model-selection flag in
`model_name` but ignores it when loading; for any availability and any two
flag values the loaded model and the transcription behaviour coincide, and
when loading succeeds the model is always Whisper "base". -/
theorem stt_flag_ignored (avail : Bool) (name1 name2 : String)
    (f : String → PyResult (Option String)) (p : String) :
    (STTModel.init avail name1).model_name = name1 ∧
    (STTModel.init avail name1).model = (STTModel.init avail name2).model ∧
    (STTModel.init avail name1).transcribe f p = (STTModel.init avail name2).transcribe f p ∧
    (STTModel.init true name1).model = some (LoadedModel.whisper "base") :=
  ⟨rfl, rfl, rfl, rfl⟩

/-- Claim C5, counterexample: the empty string has fewer than 50 words, yet
`summarize` returns the fixed no-text message instead of the input. -/
theorem summarize_blank_counterexample :
    (pyWords ("" : String).data).length < 50 ∧
    Summarizer.summarize ⟨none⟩ "" ≠ "" ∧
    Summarizer.summarize ⟨none⟩ "" = "No text to summarize." := by decide

/-- Claim C5, amended: for input that is neither empty nor whitespace-only
and has fewer than 50 whitespace-split words, `summarize` returns the input
unchanged; empty or whitespace-only input instead yields the fixed
"No text to summarize." message. -/
theorem summarize_short_returns_input (sm : Summarizer) (text : String) :
    (¬(text = "" ∨ pyStrip text = "") → (pyWords text.data).length < 50 →
      sm.summarize text = text) ∧
    ((text = "" ∨ pyStrip text = "") → sm.summarize text = "No text to summarize.") := by
  constructor
  · intro h1 h2
    rw [Summarizer.summarize, if_neg h1]
    simp only [h2, reduceIte, if_pos]
  · intro h1
    rw [Summarizer.summarize, if_pos h1]

/-- Claim C5, witness for the amended theorem on a concrete short input. -/
theorem summarize_short_returns_input_witness :
    Summarizer.summarize ⟨none⟩ "hi there" = "hi there" :=
  (summarize_short_returns_input ⟨none⟩ "hi there").1 (by decide) (by decide)

/-- Claim C6: with no diarization pipeline available, a 10000 ms clip whose
transcription yields "hello world this is a test" produces exactly one
segment, Speaker 1 from 0 to 10 seconds carrying that text. -/
theorem get_segments_ten_second_clip :
    Diarizer.get_segments ⟨false⟩ (PyResult.ok 10000) true
      (fun _ => PyResult.ok (some "hello world this is a test")) "meeting.wav" =
    [⟨"Speaker 1", 0, 10, "hello world this is a test"⟩] := by decide

/-- Claim C7: the CSV export is the header row followed by one data row per
segment in order, so it has exactly one more row than there are segments;
the emitted string is those rows each terminated by the CRLF line
terminator. -/
theorem export_as_csv_shape (segs : List Segment) :
    (csvLines segs).length = segs.length + 1 ∧
    csvLines segs = "speaker,start,end,text" :: segs.map csvRow ∧
    export_as_csv segs = String.join ((csvLines segs).map (fun r => r ++ "\r\n")) := by
  refine ⟨?_, rfl, rfl⟩
  simp [csvLines]

set_option maxRecDepth 8000 in
/-- Claim C8, counterexample: a 501-word single-sentence text with a
failing model is not returned unchanged, contrary to the claim for texts of
at most two sentences; `summarize` returns the 500-word truncation
instead. -/
theorem summarize_fallback_truncation_counterexample :
    ¬(longWords = "" ∨ pyStrip longWords = "") ∧
    (splitDotSpace longWords.data).length ≤ 2 ∧
    500 < (pyWords longWords.data).length ∧
    Summarizer.summarize ⟨some (fun _ => PyResult.exn "boom")⟩ longWords ≠ longWords ∧
    Summarizer.summarize ⟨some (fun _ => PyResult.exn "boom")⟩ longWords =
      ⟨joinSpace ((pyWords longWords.data).take 500)⟩ := by decide

/-- Claim C8, amended: with the abstractive model unavailable, `summarize`
falls back to `_simple_summary` of the text; when the model fails, the
fallback applies to the text truncated to its first 500 whitespace-split
words (the text itself only when it has at most 500 words).
`_simple_summary` returns the first two ". "-separated sentences joined
with ". " plus a trailing period when there are more than two sentences,
and its input unchanged otherwise. -/
theorem summarize_fallback_truncated (f : String → PyResult String) (text e : String) :
    (¬(text = "" ∨ pyStrip text = "") → ¬(pyWords text.data).length < 50 →
      (Summarizer.summarize ⟨none⟩ text = Summarizer._simple_summary text ∧
       (f (truncate500 text) = PyResult.exn e →
         Summarizer.summarize ⟨some f⟩ text =
           Summarizer._simple_summary (truncate500 text)))) ∧
    ((pyWords text.data).length ≤ 500 → truncate500 text = text) ∧
    (2 < (splitDotSpace text.data).length →
      Summarizer._simple_summary text =
        ⟨joinDotSpace ((splitDotSpace text.data).take 2) ++ ['.']⟩) ∧
    ((splitDotSpace text.data).length ≤ 2 → Summarizer._simple_summary text = text) := by
  refine ⟨?_, ?_, ?_, ?_⟩
  · intro h1 h2
    constructor
    · rw [Summarizer.summarize, if_neg h1]
      simp only [h2, reduceIte, if_neg]
    · intro hf
      rw [Summarizer.summarize, if_neg h1]
      simp only [h2, reduceIte, if_neg]
      rw [show (if 500 < (pyWords text.data).length then
          (⟨joinSpace ((pyWords text.data).take 500)⟩ : String) else text) = truncate500 text
        from rfl, hf]
  · intro h500
    rw [truncate500, if_neg (by omega)]
  · intro h
    rw [Summarizer._simple_summary, if_neg (by omega)]
  · intro h
    rw [Summarizer._simple_summary, if_pos h]

/-- Claim C8, witness: a concrete 50-word text with a failing model takes
the fallback on the untruncated text, and the two-sentence example "A. B."
is returned unchanged by the extractive fallback. -/
theorem summarize_fallback_truncated_witness :
    Summarizer.summarize ⟨some (fun _ => PyResult.exn "x")⟩ fiftyWords =
      Summarizer._simple_summary (truncate500 fiftyWords) ∧
    truncate500 fiftyWords = fiftyWords ∧
    Summarizer._simple_summary "A. B." = "A. B." := by
  refine ⟨?_, ?_, ?_⟩
  · exact ((summarize_fallback_truncated (fun _ => PyResult.exn "x") fiftyWords "x").1
      (by decide) (by decide)).2 (by decide)
  · exact (summarize_fallback_truncated (fun _ => PyResult.exn "x") fiftyWords "x").2.1
      (by decide)
  · exact (summarize_fallback_truncated (fun _ => PyResult.exn "x") "A. B." "x").2.2.2
      (by decide)

/-- Claim C9: for every environment and audio path, `get_segments` returns
a non-empty list whose segments all satisfy 0 ≤ start ≤ end, and on an
internal exception it is the single zero-duration error segment. -/
theorem get_segments_invariants (d : Diarizer) (audioDecode : PyResult Nat) (wa : Bool)
    (mc : String → PyResult (Option String)) (path : String) :
    Diarizer.get_segments d audioDecode wa mc path ≠ [] ∧
    (∀ s ∈ Diarizer.get_segments d audioDecode wa mc path,
      0 ≤ s.start ∧ s.start ≤ s.«end») ∧
    (∀ e, audioDecode = PyResult.exn e →
      Diarizer.get_segments d audioDecode wa mc path =
        [⟨"Speaker 1", 0, 0, "Diarization error: " ++ e⟩]) := by
  refine ⟨?_, ?_, ?_⟩
  · cases audioDecode <;> simp [Diarizer.get_segments]
  · intro s hs
    cases audioDecode with
    | ok ms =>
      simp [Diarizer.get_segments] at hs
      subst hs
      refine ⟨le_refl 0, ?_⟩
      show (0 : Int) ≤ ((ms / 1000 : Nat) : Int)
      omega
    | exn e =>
      simp [Diarizer.get_segments] at hs
      subst hs
      exact ⟨le_refl 0, le_refl 0⟩
  · intro e he
    subst he
    simp [Diarizer.get_segments]

/-- Claim C9, witness at a concrete failing decode. -/
theorem get_segments_invariants_witness :
    Diarizer.get_segments ⟨false⟩ (PyResult.exn "disk error") true
      (fun _ => PyResult.ok none) "meeting.wav" =
      [⟨"Speaker 1", 0, 0, "Diarization error: disk error"⟩] :=
  (get_segments_invariants ⟨false⟩ (PyResult.exn "disk error") true
    (fun _ => PyResult.ok none) "meeting.wav").2.2 "disk error" rfl

/-- Claim C10: after the diarization stage of a run that reaches it, the
first stored segment carries the full stage-two transcript as its text, and
when `get_segments` took its internal error path the error description is
overwritten by the transcript while the zero-duration timestamps remain. -/
theorem first_segment_text_overwrite (env : RunEnv) (s0 : SessionState)
    (h1 : env.initExn = none) (h2 : env.transcribeExn = none)
    (h3 : hasErrorMarker (envTranscript env) = false) (h4 : env.diarizeExn = none) :
    ((runHandler env s0).1.segments.head?).map Segment.text = some (envTranscript env) ∧
    (∀ e, env.audioDecode = PyResult.exn e →
      (runHandler env s0).1.segments = [⟨"Speaker 1", 0, 0, envTranscript env⟩]) := by
  have hseg := (runHandler_stage4 env s0 h1 h2 h3 h4).1
  have hspec := envSegments_spec env
  refine ⟨by rw [hseg]; exact hspec.1, ?_⟩
  intro e he
  rw [hseg]
  exact hspec.2 e he

/-- Claim C10, witness: a concrete run in which audio decoding fails inside
`get_segments`, so its error segment text is overwritten by the
transcript. -/
theorem first_segment_text_overwrite_witness :
    ((runHandler envDecodeFails freshSession).1.segments.head?).map Segment.text =
      some (envTranscript envDecodeFails) ∧
    (runHandler envDecodeFails freshSession).1.segments =
      [⟨"Speaker 1", 0, 0, envTranscript envDecodeFails⟩] := by
  have h := first_segment_text_overwrite envDecodeFails freshSession rfl rfl (by decide) rfl
  exact ⟨h.1, h.2 "disk error" rfl⟩
